import Mathlib

/-!
Shallow embedding of the schedule-visualization code of the `bellum`
repository (directory `src/minizinc`).

The embedded code:
* `src/minizinc/common.py` — `PRIORITY_COLORS`, `build_task_predecessors`,
  `plot_schedule` (the shared renderer);
* the guard in `main` of `src/minizinc/visualize_schedule.py` and
  `src/minizinc/visualize_schedule_cp.py` (empty required arrays abort the
  run before any chart is produced), composed with `plot_schedule` as the
  function `render`;
* the title line of `src/minizinc/visualize_schedule.py` (`legacyTitle`);
* the assignment-recovery loop of `src/minizinc/visualize_schedule_mip.py`
  (`mip_assigned_emp`, `mip_assignments`, `visualize_mip`).

Python machine-level details that the claims do not touch (figure size,
colors of edges, alpha, font sizes) are carried as plain record fields or
omitted.  Python `zip` truncates to the shortest list; `List.zip` does the
same.  Python dict keys coming from JSON integers are modelled as `Int`.
-/

/-- A horizontal bar drawn by `ax.barh(emp, dur, left=start, ...)`:
row (employee), width (duration), left edge (start time) and fill color. -/
structure Bar where
  emp : Int
  width : Int
  left : Int
  color : String
deriving DecidableEq

/-- An arrow drawn by `ax.annotate("", xy=(start, emp), xytext=(p_end, p_emp), ...)`:
`xy` is the head (successor start, successor row), `xytext` the tail
(predecessor finish, predecessor row). -/
structure ChartArrow where
  xy : Int × Int
  xytext : Int × Int
deriving DecidableEq

/-- A text label drawn by `ax.text(start + dur / 2, emp, label, ...)`.
The horizontal position `start + dur / 2` uses true division, hence `ℚ`. -/
structure ChartLabel where
  x : ℚ
  y : Int
  text : String
deriving DecidableEq

/-- The set of primitives composed onto the figure by `plot_schedule`. -/
structure Chart where
  bars : List Bar
  arrows : List ChartArrow
  labels : List ChartLabel
  yticks : List Int
  ytickLabels : List String
  xlabel : String
  ylabel : String
  title : String
deriving DecidableEq

/-- The error reported when a required sequence is missing or empty
(the `"Error: Missing required data fields"` path of the scripts,
named `MissingDataError` by the specification). -/
structure MissingDataError where
  message : String
deriving DecidableEq

/-- Python `zip(a, b, c)`: truncates to the shortest of the three lists. -/
def zip3 {α β γ : Type} (a : List α) (b : List β) (c : List γ) :
    List (α × β × γ) :=
  a.zip (b.zip c)

/-- `PRIORITY_COLORS = {0: "red", 1: "blue", 2: "green"}` of `common.py`,
as a partial map; `none` models a key that is absent from the dict. -/
def PRIORITY_COLORS (p : Int) : Option String :=
  if p = 0 then some "red"
  else if p = 1 then some "blue"
  else if p = 2 then some "green"
  else none

/-- `build_task_predecessors` of `common.py`: folds over the precedence
pairs, appending each predecessor to the list of its successor.  The Python
dict with default `[]` is modelled as a total function `Int → List Int`
whose value at a never-inserted key is `[]`. -/
def build_task_predecessors (precedence : List (Int × Int)) : Int → List Int :=
  precedence.foldl
    (fun acc e => fun j => if j = e.2 then acc j ++ [e.1] else acc j)
    (fun _ => [])

/-- The color chosen for task `i` in `plot_schedule`:
`priority = priorities[i] if i < len(priorities) else None` followed by
`PRIORITY_COLORS.get(priority, "gray") if priority is not None else "gray"`. -/
def taskColor (priorities : List Int) (i : Nat) : String :=
  match priorities[i]? with
  | some p => (PRIORITY_COLORS p).getD "gray"
  | none => "gray"

/-- `task_coords` of `plot_schedule`: the dict maps each index
`0 ≤ p < len(zip(assignments, start_times, durations))` to
`(start, start + dur, emp)`; any other key is absent (`none`). -/
def taskCoord (tasks : List (Int × Int × Int)) (p : Int) : Option (Int × Int × Int) :=
  if p < 0 then none
  else
    match tasks[p.toNat]? with
    | some (emp, st, du) => some (st, st + du, emp)
    | none => none

/-- `p` is a valid (0-based) index of the rendered task list. -/
def validTaskIdx (tasks : List (Int × Int × Int)) (p : Int) : Prop :=
  0 ≤ p ∧ p.toNat < tasks.length

instance (tasks : List (Int × Int × Int)) (p : Int) :
    Decidable (validTaskIdx tasks p) :=
  inferInstanceAs (Decidable (_ ∧ _))

/-- The label text of task `i` in `plot_schedule`:
`label = f"T{i}"`, replaced by `f"{pred_str} -> {label}"` when the
predecessor list is non-empty. -/
def taskLabel (precedence : List (Int × Int)) (i : Nat) : String :=
  let preds := build_task_predecessors precedence (Int.ofNat i)
  if preds = [] then "T" ++ toString i
  else
    String.intercalate "," (preds.map (fun p => "T" ++ toString p)) ++
      " -> " ++ ("T" ++ toString i)

/-- The body of the arrow loop for one predecessor `p` of the task at row
`emp` with start `st`: an arrow when `p_idx in task_coords`, nothing
otherwise (the dangling-reference guard of `plot_schedule`). -/
def arrowFromPred (tasks : List (Int × Int × Int)) (emp st : Int) (p : Int) :
    Option ChartArrow :=
  match taskCoord tasks p with
  | some (_, pe, pemp) => some { xy := (st, emp), xytext := (pe, pemp) }
  | none => none

/-- The arrows drawn while handling task `i` (row `emp`, start `st`):
one per predecessor `p` that is a key of `task_coords`, with head at the
task's `(start, emp)` and tail at the predecessor's `(p_end, p_emp)`. -/
def taskArrows (tasks : List (Int × Int × Int)) (precedence : List (Int × Int))
    (i : Nat) (emp st : Int) : List ChartArrow :=
  (build_task_predecessors precedence (Int.ofNat i)).filterMap
    (arrowFromPred tasks emp st)

/-- `plot_schedule` of `common.py`: bars, arrows, labels, y-axis ticks and
title, assembled in one pass over `enumerate(zip(assignments, start_times,
durations))`.  `employees = sorted(set(assignments))`. -/
def plot_schedule (assignments start_times durations priorities : List Int)
    (precedence : List (Int × Int)) (max_time priority_cost : Int)
    (titlePre : String) : Chart :=
  let employees := (assignments.dedup).insertionSort (fun x y => x ≤ y)
  let tasks := zip3 assignments start_times durations
  { bars := tasks.enum.map
      (fun it => { emp := it.2.1, width := it.2.2.2, left := it.2.2.1,
                   color := taskColor priorities it.1 }),
    arrows := tasks.enum.flatMap
      (fun it => taskArrows tasks precedence it.1 it.2.1 it.2.2.1),
    labels := tasks.enum.map
      (fun it => { x := (it.2.2.1 : ℚ) + (it.2.2.2 : ℚ) / 2, y := it.2.1,
                   text := taskLabel precedence it.1 }),
    yticks := employees,
    ytickLabels := employees.map (fun e => "Employee " ++ toString e),
    xlabel := "Time",
    ylabel := "Employees",
    title := titlePre ++ " Visualization (Makespan: " ++ toString max_time ++
      ", Priority Cost: " ++ toString priority_cost ++ ")" }

/-- The renderer contract of the specification: the scripts' guard
`if not assignments or not start_times or not durations:` aborts with the
missing-data error before any figure is created; otherwise the chart is the
value of `plot_schedule`. -/
def render (assignments start_times durations priorities : List Int)
    (precedence : List (Int × Int)) (max_time priority_cost : Int)
    (titlePre : String) : Except MissingDataError Chart :=
  if assignments = [] ∨ start_times = [] ∨ durations = [] then
    Except.error { message := "Error: Missing required data fields (a, s, dur)." }
  else
    Except.ok (plot_schedule assignments start_times durations priorities
      precedence max_time priority_cost titlePre)

/-- The title set by `main` of `visualize_schedule.py` (line 134):
`f'Schedule Visualization (Max Time: {max_time}, Priority Cost: {priority_cost})'`. -/
def legacyTitle (max_time priority_cost : Int) : String :=
  "Schedule Visualization (Max Time: " ++ toString max_time ++
    ", Priority Cost: " ++ toString priority_cost ++ ")"

/-- The arrow the specification promises for a precedence edge `(p, s)`
with two valid endpoints: tail at the predecessor's finish
`(start[p] + duration[p], employee[p])`, head at `(start[s], employee[s])`;
`none` when either endpoint is out of range. -/
def edgeArrow (tasks : List (Int × Int × Int)) (e : Int × Int) :
    Option ChartArrow :=
  match taskCoord tasks e.1, taskCoord tasks e.2 with
  | some (_, pe, pemp), some (sst, _, semp) =>
      some { xy := (sst, semp), xytext := (pe, pemp) }
  | _, _ => none

/-- The four-way categorical palette as the specification words it:
0 → red, 1 → blue, 2 → green, any other or missing value → gray. -/
def specColor (p : Option Int) : String :=
  match p with
  | none => "gray"
  | some v => if v = 0 then "red" else if v = 1 then "blue"
      else if v = 2 then "green" else "gray"

/-- The assignment-recovery loop of `visualize_schedule_mip.py`
(lines 73–83): the first employee `e` with
`e < len(x) and t < len(x[e]) and x[e][t] == 1`, if any. -/
def mip_assigned_emp (x : List (List Int)) (t : Nat) : Option Nat :=
  (List.range x.length).find?
    (fun e => decide (e < x.length) && decide (t < (x.getD e []).length) &&
      decide ((x.getD e []).getD t 0 = 1))

/-- The employee finally assigned to task `t` by the MIP script: the found
employee, or `0` after the `"Warning: Task {t} has no assignment"` print. -/
def mip_assignment (x : List (List Int)) (t : Nat) : Nat :=
  (mip_assigned_emp x t).getD 0

/-- The `assignments` list built by the MIP script (`n = len(start_times)`). -/
def mip_assignments (x : List (List Int)) (n : Nat) : List Nat :=
  (List.range n).map (mip_assignment x)

/-- `main` of `visualize_schedule_mip.py`, chart part: its plotting code is
the body of `plot_schedule` with the recovered assignments and the fixed
title "MIP Schedule Visualization (Makespan: ..., Priority Cost: ...)". -/
def visualize_mip (x : List (List Int)) (start_times durations p : List Int)
    (precedence : List (Int × Int)) (max_time priority_cost : Int) : Chart :=
  plot_schedule ((mip_assignments x start_times.length).map Int.ofNat)
    start_times durations p precedence max_time priority_cost "MIP Schedule"

/-- `pat` starts the list `l`. -/
def startsList : List Char → List Char → Bool
  | [], _ => true
  | _ :: _, [] => false
  | a :: as, b :: bs => a == b && startsList as bs

/-- `pat` occurs contiguously somewhere in `l`. -/
def hasSubList (pat : List Char) : List Char → Bool
  | [] => startsList pat []
  | b :: bs => startsList pat (b :: bs) || hasSubList pat bs

/-- Executable substring test on strings. -/
def strHasSub (s pat : String) : Bool :=
  hasSubList pat.data s.data

/-- `pat` is a contiguous substring of `s`. -/
def Contains (s pat : String) : Prop :=
  ∃ u v : String, s = u ++ pat ++ v

/-! ### Helper lemmas -/

theorem btp_aux (prec : List (Int × Int)) (acc : Int → List Int) (j : Int) :
    prec.foldl
      (fun acc e => fun j => if j = e.2 then acc j ++ [e.1] else acc j)
      acc j =
    acc j ++ (prec.filter (fun e => decide (e.2 = j))).map Prod.fst := by
  induction prec generalizing acc with
  | nil => simp
  | cons e rest ih =>
      simp only [List.foldl_cons, ih, List.filter_cons]
      by_cases h : e.2 = j
      · simp [h]
      · have h2 : ¬ j = e.2 := fun hh => h hh.symm
        simp [h, h2]

theorem btp_eq (prec : List (Int × Int)) (j : Int) :
    build_task_predecessors prec j =
      (prec.filter (fun e => decide (e.2 = j))).map Prod.fst := by
  unfold build_task_predecessors
  rw [btp_aux]
  simp

theorem btp_cons (e : Int × Int) (rest : List (Int × Int)) (j : Int) :
    build_task_predecessors (e :: rest) j =
      if e.2 = j then e.1 :: build_task_predecessors rest j
      else build_task_predecessors rest j := by
  rw [btp_eq, btp_eq, List.filter_cons]
  by_cases h : e.2 = j <;> simp [h]

theorem plot_bars_getElem (a s d prio : List Int) (prec : List (Int × Int))
    (m c : Int) (pre : String) (i : Nat) :
    (plot_schedule a s d prio prec m c pre).bars[i]? =
      ((zip3 a s d)[i]?).map
        (fun t => { emp := t.1, width := t.2.2, left := t.2.1,
                    color := taskColor prio i : Bar }) := by
  show ((zip3 a s d).enum.map _)[i]? = _
  rw [List.getElem?_map, List.getElem?_enum]
  cases (zip3 a s d)[i]? <;> rfl

theorem plot_labels_getElem (a s d prio : List Int) (prec : List (Int × Int))
    (m c : Int) (pre : String) (i : Nat) :
    (plot_schedule a s d prio prec m c pre).labels[i]? =
      ((zip3 a s d)[i]?).map
        (fun t => { x := (t.2.1 : ℚ) + (t.2.2 : ℚ) / 2, y := t.1,
                    text := taskLabel prec i : ChartLabel }) := by
  show ((zip3 a s d).enum.map _)[i]? = _
  rw [List.getElem?_map, List.getElem?_enum]
  cases (zip3 a s d)[i]? <;> rfl

theorem plot_arrows_def (a s d prio : List Int) (prec : List (Int × Int))
    (m c : Int) (pre : String) :
    (plot_schedule a s d prio prec m c pre).arrows =
      (zip3 a s d).enum.flatMap
        (fun it => taskArrows (zip3 a s d) prec it.1 it.2.1 it.2.2.1) := rfl

theorem plot_title_def (a s d prio : List Int) (prec : List (Int × Int))
    (m c : Int) (pre : String) :
    (plot_schedule a s d prio prec m c pre).title =
      pre ++ " Visualization (Makespan: " ++ toString m ++
        ", Priority Cost: " ++ toString c ++ ")" := rfl

theorem taskCoord_eq_none_iff (tasks : List (Int × Int × Int)) (p : Int) :
    taskCoord tasks p = none ↔ ¬ validTaskIdx tasks p := by
  unfold taskCoord validTaskIdx
  by_cases h : p < 0
  · simp [h]
  · simp only [h, if_false]
    rcases hg : tasks[p.toNat]? with _ | t
    · rw [List.getElem?_eq_none_iff] at hg
      simp
      omega
    · have hlt : p.toNat < tasks.length := by
        by_contra hge
        rw [List.getElem?_eq_none_iff.2 (by omega)] at hg
        exact Option.noConfusion hg
      rcases t with ⟨emp, st, du⟩
      simp
      omega

theorem taskCoord_valid (tasks : List (Int × Int × Int)) (p : Int)
    (h : validTaskIdx tasks p) :
    taskCoord tasks p =
      (tasks[p.toNat]?).map (fun t => (t.2.1, t.2.1 + t.2.2, t.1)) := by
  unfold taskCoord
  rcases h with ⟨h0, hlt⟩
  rw [if_neg (by omega)]
  rw [List.getElem?_eq_getElem hlt]
  rfl

theorem zip3_length {α β γ : Type} (a : List α) (b : List β) (c : List γ) :
    (zip3 a b c).length = min a.length (min b.length c.length) := by
  unfold zip3
  simp [List.length_zip]

theorem zip3_getElem {α β γ : Type} (as : List α) (bs : List β) (cs : List γ)
    (i : Nat) :
    (zip3 as bs cs)[i]? =
      match (as[i]?), (bs[i]?) with
      | some x, some y => (cs[i]?).map (fun z => (x, y, z))
      | _, _ => none := by
  simp only [zip3, List.zip, List.getElem?_zipWith']
  rcases as[i]? with _ | x <;> rcases bs[i]? with _ | y <;>
    rcases cs[i]? with _ | z <;> rfl

theorem startsList_self_append (pat v : List Char) :
    startsList pat (pat ++ v) = true := by
  induction pat with
  | nil => rfl
  | cons a as ih => simp [startsList, ih]

theorem hasSubList_of_startsList (pat l : List Char)
    (h : startsList pat l = true) : hasSubList pat l = true := by
  cases l with
  | nil => simpa [hasSubList] using h
  | cons b bs => simp [hasSubList, h]

theorem hasSubList_of_parts (pat u v : List Char) :
    hasSubList pat (u ++ pat ++ v) = true := by
  induction u with
  | nil =>
      apply hasSubList_of_startsList
      simpa using startsList_self_append pat v
  | cons a u ih =>
      have h : hasSubList pat ((a :: u) ++ pat ++ v) =
          (startsList pat ((a :: u) ++ pat ++ v) ||
            hasSubList pat (u ++ pat ++ v)) := rfl
      rw [h, ih, Bool.or_true]

theorem strHasSub_of_Contains (s pat : String) (h : Contains s pat) :
    strHasSub s pat = true := by
  obtain ⟨u, v, hh⟩ := h
  unfold strHasSub
  rw [hh, String.data_append, String.data_append]
  exact hasSubList_of_parts pat.data u.data v.data

theorem flatMap_const_nil {τ ρ : Type} (l : List τ) :
    (l.flatMap fun _ => ([] : List ρ)) = [] := by
  induction l with
  | nil => rfl
  | cons a l ih => simp [List.flatMap_cons, ih]

theorem perm_shuffle {ρ : Type} (A G E R : List ρ) :
    ((A ++ G) ++ (E ++ R)).Perm ((A ++ E) ++ (G ++ R)) := by
  have h : (G ++ (E ++ R)).Perm (E ++ (G ++ R)) := by
    have h1 : ((G ++ E) ++ R).Perm ((E ++ G) ++ R) :=
      List.Perm.append (@List.perm_append_comm _ G E) (List.Perm.refl R)
    simpa [List.append_assoc] using h1
  simpa [List.append_assoc] using List.Perm.append_left A h

theorem taskArrows_cons (tasks : List (Int × Int × Int)) (e : Int × Int)
    (rest : List (Int × Int)) (i : Nat) (emp st : Int) :
    taskArrows tasks (e :: rest) i emp st =
      (if Int.ofNat i = e.2 then (arrowFromPred tasks emp st e.1).toList
       else []) ++ taskArrows tasks rest i emp st := by
  unfold taskArrows
  rw [btp_cons]
  by_cases h : e.2 = Int.ofNat i
  · rw [if_pos h, if_pos h.symm, List.filterMap_cons]
    cases arrowFromPred tasks emp st e.1 <;> simp [Option.toList]
  · rw [if_neg h, if_neg (fun hh => h hh.symm)]
    simp

theorem flatMap_taskArrows_cons (tasks : List (Int × Int × Int))
    (e : Int × Int) (rest : List (Int × Int))
    (l : List (Nat × (Int × Int × Int))) :
    (l.flatMap fun it => taskArrows tasks (e :: rest) it.1 it.2.1 it.2.2.1).Perm
      ((l.flatMap fun it =>
          if Int.ofNat it.1 = e.2 then
            (arrowFromPred tasks it.2.1 it.2.2.1 e.1).toList
          else []) ++
        l.flatMap fun it => taskArrows tasks rest it.1 it.2.1 it.2.2.1) := by
  induction l with
  | nil => simp
  | cons it l ih =>
      simp only [List.flatMap_cons]
      rw [taskArrows_cons]
      refine List.Perm.trans (List.Perm.append_left _ ih) ?_
      exact perm_shuffle _ _ _ _

theorem flatMap_enumFrom_single {τ ρ : Type} (l : List τ) (j k : Nat)
    (F : τ → List ρ) :
    ((l.enumFrom j).flatMap fun it => if it.1 = k then F it.2 else []) =
      match l[k - j]? with
      | some t => if j ≤ k then F t else []
      | none => [] := by
  induction l generalizing j with
  | nil => simp [List.enumFrom]
  | cons t ts ih =>
      simp only [List.enumFrom_cons, List.flatMap_cons]
      rw [ih (j + 1)]
      by_cases h1 : j = k
      · subst h1
        have h2 : ¬ (j + 1 ≤ j) := by omega
        have h3 : j - (j + 1) = 0 := by omega
        have h4 : j - j = 0 := by omega
        rw [h3, h4]
        cases hg : ts[0]? <;> simp [h2, List.getElem?_cons_zero]
      · by_cases h2 : j ≤ k
        · have h3 : k - j = (k - (j + 1)) + 1 := by omega
          have h4 : j + 1 ≤ k := by omega
          rw [h3, List.getElem?_cons_succ, if_neg h1]
          cases hg : ts[k - (j + 1)]? <;> simp [h2, h4]
        · have h3 : k - j = 0 := by omega
          have h4 : k - (j + 1) = 0 := by omega
          have h5 : ¬ (j + 1 ≤ k) := by omega
          rw [h3, h4, List.getElem?_cons_zero, if_neg h1]
          cases hg : ts[0]? <;> simp [h2, h5]

theorem mem_enum_fst_lt {τ : Type} (l : List τ) (it : Nat × τ)
    (h : it ∈ l.enum) : it.1 < l.length := by
  rw [List.enum_eq_zip_range] at h
  rcases it with ⟨i, t⟩
  have h2 := (List.of_mem_zip h).1
  simpa [List.mem_range] using h2

theorem extra_eq_edgeArrow (tasks : List (Int × Int × Int)) (e : Int × Int) :
    (tasks.enum.flatMap fun it =>
      if Int.ofNat it.1 = e.2 then
        (arrowFromPred tasks it.2.1 it.2.2.1 e.1).toList
      else []) = (edgeArrow tasks e).toList := by
  by_cases hneg : e.2 < 0
  · have hnone : taskCoord tasks e.2 = none := by
      unfold taskCoord
      rw [if_pos hneg]
    have hz : ∀ it : Nat × (Int × Int × Int),
        (if Int.ofNat it.1 = e.2 then
          (arrowFromPred tasks it.2.1 it.2.2.1 e.1).toList
        else []) = [] := by
      intro it
      rw [if_neg]
      intro hh
      rw [Int.ofNat_eq_natCast] at hh
      omega
    rw [List.flatMap_congr (fun x _ => hz x), flatMap_const_nil]
    rcases hA : taskCoord tasks e.1 with _ | ⟨ps, pe, pemp⟩ <;>
      simp [edgeArrow, hA, hnone]
  · have h0 : (0 : Int) ≤ e.2 := by omega
    have htc : taskCoord tasks e.2 =
        (match tasks[e.2.toNat]? with
         | some (emp, st, du) => some (st, st + du, emp)
         | none => none) := by
      unfold taskCoord
      rw [if_neg hneg]
    have hcond : ∀ it : Nat × (Int × Int × Int),
        (if Int.ofNat it.1 = e.2 then
          (arrowFromPred tasks it.2.1 it.2.2.1 e.1).toList
        else []) =
        (if it.1 = e.2.toNat then
          (arrowFromPred tasks it.2.1 it.2.2.1 e.1).toList
        else []) := by
      intro it
      by_cases hit : it.1 = e.2.toNat
      · rw [if_pos hit, if_pos]
        rw [hit, Int.ofNat_eq_natCast, Int.toNat_of_nonneg h0]
      · rw [if_neg hit, if_neg]
        intro hh
        rw [Int.ofNat_eq_natCast] at hh
        omega
    rw [List.flatMap_congr (fun x _ => hcond x)]
    refine (flatMap_enumFrom_single tasks 0 e.2.toNat
      (fun t => (arrowFromPred tasks t.1 t.2.1 e.1).toList)).trans ?_
    simp only [Nat.sub_zero]
    rcases hT : tasks[e.2.toNat]? with _ | ⟨emp, st, du⟩
    · rw [hT] at htc
      rcases hA : taskCoord tasks e.1 with _ | ⟨ps, pe, pemp⟩ <;>
        simp [edgeArrow, hA, htc]
    · rw [hT] at htc
      rcases hA : taskCoord tasks e.1 with _ | ⟨ps, pe, pemp⟩ <;>
        simp [edgeArrow, arrowFromPred, hA, htc]

theorem flatMap_arrows_perm (tasks : List (Int × Int × Int))
    (prec : List (Int × Int)) :
    (tasks.enum.flatMap
      fun it => taskArrows tasks prec it.1 it.2.1 it.2.2.1).Perm
      (prec.filterMap (edgeArrow tasks)) := by
  induction prec with
  | nil =>
      have hz : ∀ it : Nat × (Int × Int × Int),
          taskArrows tasks [] it.1 it.2.1 it.2.2.1 = [] := fun it => rfl
      rw [List.flatMap_congr (fun x _ => hz x), flatMap_const_nil,
        List.filterMap_nil]
  | cons e rest ih =>
      refine (flatMap_taskArrows_cons tasks e rest tasks.enum).trans ?_
      rw [extra_eq_edgeArrow, List.filterMap_cons]
      cases hE : edgeArrow tasks e with
      | none => simpa using ih
      | some arw => simpa using List.Perm.cons arw ih

theorem taskColor_eq_spec (prio : List Int) (i : Nat) :
    taskColor prio i = specColor (prio[i]?) := by
  unfold taskColor specColor
  cases prio[i]? with
  | none => rfl
  | some v =>
      show (PRIORITY_COLORS v).getD "gray" =
        (if v = 0 then "red" else if v = 1 then "blue"
         else if v = 2 then "green" else "gray")
      unfold PRIORITY_COLORS
      split_ifs <;> rfl

/-! ### Claim theorems -/

/-- C1 counterexample: employee, start and duration sequences that are
non-empty but of unequal lengths (2, 1, 1) do NOT make `render` fail with a
`MissingDataError`; the render succeeds. -/
theorem C1_counterexample :
    ([0, 1] : List Int) ≠ [] ∧ ([0] : List Int) ≠ [] ∧
    ([2] : List Int) ≠ [] ∧
    ([0, 1] : List Int).length ≠ ([0] : List Int).length ∧
    (render [0, 1] [0] [2] [] [] 5 1 "Schedule").isOk = true := by
  refine ⟨by decide, by decide, by decide, by decide, ?_⟩
  rfl

/-- C1 (amended): for non-empty employee/start/duration sequences `render`
never fails, whatever their lengths; `zip` silently truncates, so the chart
holds `min |a| (min |s| |d|)` bars (a partial chart when lengths differ). -/
theorem C1_amended_no_length_check (a s d prio : List Int)
    (prec : List (Int × Int)) (m cst : Int) (pre : String)
    (ha : a ≠ []) (hs : s ≠ []) (hdur : d ≠ []) :
    render a s d prio prec m cst pre =
      Except.ok (plot_schedule a s d prio prec m cst pre) ∧
    (plot_schedule a s d prio prec m cst pre).bars.length =
      min a.length (min s.length d.length) := by
  constructor
  · unfold render
    rw [if_neg]
    rintro (h | h | h)
    exacts [ha h, hs h, hdur h]
  · show ((zip3 a s d).enum.map _).length = _
    rw [List.length_map, List.enum_length, zip3_length]

/-- C1 witness: the amended statement at the concrete unequal-length input. -/
theorem C1_witness :
    ([0, 1] : List Int) ≠ [] ∧ ([0] : List Int) ≠ [] ∧
    ([2] : List Int) ≠ [] ∧
    (render [0, 1] [0] [2] [] [] 5 1 "Schedule" =
       Except.ok (plot_schedule [0, 1] [0] [2] [] [] 5 1 "Schedule") ∧
     (plot_schedule [0, 1] [0] [2] [] [] 5 1 "Schedule").bars.length =
       min 2 (min 1 1)) :=
  ⟨by decide, by decide, by decide,
    C1_amended_no_length_check [0, 1] [0] [2] [] [] 5 1 "Schedule"
      (by decide) (by decide) (by decide)⟩

/-- C2: when the employee, start-time or duration sequence is empty,
`render` stops with the `MissingDataError` and produces no chart. -/
theorem C2_empty_sequence_fails (a s d prio : List Int)
    (prec : List (Int × Int)) (m cst : Int) (pre : String)
    (h : a = [] ∨ s = [] ∨ d = []) :
    render a s d prio prec m cst pre =
      Except.error
        { message := "Error: Missing required data fields (a, s, dur)." } := by
  unfold render
  rw [if_pos h]

/-- C2 witness: an empty start-times array aborts the render. -/
theorem C2_witness :
    (([0, 1] : List Int) = [] ∨ ([] : List Int) = [] ∨
      ([3, 2] : List Int) = []) ∧
    render [0, 1] [] [3, 2] [] [] 5 1 "Schedule" =
      Except.error
        { message := "Error: Missing required data fields (a, s, dur)." } :=
  ⟨Or.inr (Or.inl rfl),
    C2_empty_sequence_fails [0, 1] [] [3, 2] [] [] 5 1 "Schedule"
      (Or.inr (Or.inl rfl))⟩

/-- C4: the bar color is a total function of the task's priority entry:
0 maps to red, 1 to blue, 2 to green, and any other value — or a missing
entry when the priorities list is shorter — maps to gray; every priority
value yields a bar, none errors. -/
theorem C4_priority_color_total (a s d prio : List Int)
    (prec : List (Int × Int)) (m cst : Int) (pre : String) (i : Nat) :
    ((plot_schedule a s d prio prec m cst pre).bars[i]?).map Bar.color =
      ((zip3 a s d)[i]?).map (fun _ => specColor (prio[i]?)) := by
  rw [plot_bars_getElem]
  cases hq : (zip3 a s d)[i]? <;> simp [taskColor_eq_spec]

/-- C5: the label text of task `i` is `"T{i}"` when `i` has no
predecessors, else the comma-joined predecessor labels followed by
`" -> T{i}"`, with predecessors in the order the precedence edges with
successor `i` were inserted (filter order of the edge list). -/
theorem C5_label_text (a s d prio : List Int) (prec : List (Int × Int))
    (m cst : Int) (pre : String) (i : Nat) :
    ((plot_schedule a s d prio prec m cst pre).labels[i]?).map
        ChartLabel.text =
      ((zip3 a s d)[i]?).map (fun _ =>
        if (prec.filter (fun e => decide (e.2 = Int.ofNat i))).map
            Prod.fst = [] then
          "T" ++ toString i
        else
          String.intercalate ","
              ((((prec.filter (fun e => decide (e.2 = Int.ofNat i))).map
                Prod.fst)).map (fun p => "T" ++ toString p)) ++
            " -> " ++ ("T" ++ toString i)) := by
  rw [plot_labels_getElem]
  cases hq : (zip3 a s d)[i]?
  · rfl
  · simp only [Option.map_some']
    congr 1
    simp only [taskLabel]
    rw [btp_eq]

/-- C6: the drawn arrows are, up to the grouping order, exactly one arrow
per precedence edge with two valid endpoints, with tail at the
predecessor's finish `(start[p] + duration[p], employee[p])` and head at
the successor's start `(start[s], employee[s])`; edges with an invalid
endpoint contribute nothing. -/
theorem C6_arrows_per_edge (a s d prio : List Int) (prec : List (Int × Int))
    (m cst : Int) (pre : String) :
    ((plot_schedule a s d prio prec m cst pre).arrows).Perm
      (prec.filterMap (edgeArrow (zip3 a s d))) := by
  rw [plot_arrows_def]
  exact flatMap_arrows_perm (zip3 a s d) prec

/-- C7 counterexample: the stdin-based renderer of
`visualize_schedule.py` titles the chart "Schedule Visualization
(Max Time: 5, Priority Cost: 1)" at makespan 5, which does not contain
"Makespan: 5" — so not every successful render's title does. -/
theorem C7_counterexample :
    legacyTitle 5 1 =
      "Schedule Visualization (Max Time: 5, Priority Cost: 1)" ∧
    ¬ Contains (legacyTitle 5 1) "Makespan: 5" := by
  constructor
  · decide
  · intro hcon
    have h := strHasSub_of_Contains _ _ hcon
    have h2 : strHasSub (legacyTitle 5 1) "Makespan: 5" = false := by decide
    rw [h] at h2
    exact Bool.noConfusion h2

/-- C7 (amended): every chart produced by the shared renderer
`plot_schedule` (the CP and MIP paths) has a title containing
"Makespan: {makespan}" and "Priority Cost: {priority cost}"; the legacy
stdin script instead writes "Max Time: {makespan}". -/
theorem C7_amended_plot_title (a s d prio : List Int)
    (prec : List (Int × Int)) (m cst : Int) (pre : String) :
    Contains ((plot_schedule a s d prio prec m cst pre).title)
      ("Makespan: " ++ toString m) ∧
    Contains ((plot_schedule a s d prio prec m cst pre).title)
      ("Priority Cost: " ++ toString cst) := by
  constructor
  · refine ⟨pre ++ " Visualization (",
      ", Priority Cost: " ++ toString cst ++ ")", ?_⟩
    have hsplit : (" Visualization (Makespan: " : String) =
        " Visualization (" ++ "Makespan: " := by decide
    rw [plot_title_def, hsplit]
    simp only [String.append_assoc]
  · refine ⟨pre ++ " Visualization (Makespan: " ++ toString m ++ ", ",
      ")", ?_⟩
    have hsplit : (", Priority Cost: " : String) =
        ", " ++ "Priority Cost: " := by decide
    rw [plot_title_def, hsplit]
    simp only [String.append_assoc]

/-- C8: the renderer is deterministic — two runs on identical inputs draw
identical primitives (bars, labels, arrows); the embedding is a pure
function of the schedule data, with no other input. -/
theorem C8_deterministic (a s d prio : List Int) (prec : List (Int × Int))
    (m cst : Int) (pre : String) (a2 s2 d2 prio2 : List Int)
    (prec2 : List (Int × Int)) (m2 cst2 : Int) (pre2 : String)
    (h1 : a = a2) (h2 : s = s2) (h3 : d = d2) (h4 : prio = prio2)
    (h5 : prec = prec2) (h6 : m = m2) (h7 : cst = cst2) (h8 : pre = pre2) :
    (plot_schedule a s d prio prec m cst pre).bars =
      (plot_schedule a2 s2 d2 prio2 prec2 m2 cst2 pre2).bars ∧
    (plot_schedule a s d prio prec m cst pre).labels =
      (plot_schedule a2 s2 d2 prio2 prec2 m2 cst2 pre2).labels ∧
    (plot_schedule a s d prio prec m cst pre).arrows =
      (plot_schedule a2 s2 d2 prio2 prec2 m2 cst2 pre2).arrows := by
  subst h1; subst h2; subst h3; subst h4
  subst h5; subst h6; subst h7; subst h8
  exact ⟨rfl, rfl, rfl⟩

/-- C8 witness: two identical concrete runs draw the same primitives. -/
theorem C8_witness :
    (([0, 1] : List Int) = [0, 1]) ∧
    ((plot_schedule [0, 1] [0, 3] [3, 2] [0, 1] [(0, 1)] 5 1
        "Schedule").bars =
      (plot_schedule [0, 1] [0, 3] [3, 2] [0, 1] [(0, 1)] 5 1
        "Schedule").bars ∧
     (plot_schedule [0, 1] [0, 3] [3, 2] [0, 1] [(0, 1)] 5 1
        "Schedule").labels =
      (plot_schedule [0, 1] [0, 3] [3, 2] [0, 1] [(0, 1)] 5 1
        "Schedule").labels ∧
     (plot_schedule [0, 1] [0, 3] [3, 2] [0, 1] [(0, 1)] 5 1
        "Schedule").arrows =
      (plot_schedule [0, 1] [0, 3] [3, 2] [0, 1] [(0, 1)] 5 1
        "Schedule").arrows) :=
  ⟨rfl,
    C8_deterministic [0, 1] [0, 3] [3, 2] [0, 1] [(0, 1)] 5 1 "Schedule"
      [0, 1] [0, 3] [3, 2] [0, 1] [(0, 1)] 5 1 "Schedule"
      rfl rfl rfl rfl rfl rfl rfl rfl⟩

theorem taskArrows_middle_dangling (tasks : List (Int × Int × Int))
    (P1 P2 : List (Int × Int)) (e : Int × Int) (i : Nat) (emp st : Int)
    (hi : i < tasks.length)
    (hd : ¬ validTaskIdx tasks e.1 ∨ ¬ validTaskIdx tasks e.2) :
    taskArrows tasks (P1 ++ e :: P2) i emp st =
      taskArrows tasks (P1 ++ P2) i emp st := by
  unfold taskArrows
  rw [btp_eq, btp_eq, List.filter_append, List.filter_append,
    List.filter_cons]
  by_cases hmatch : e.2 = Int.ofNat i
  · have he2 : validTaskIdx tasks e.2 := by
      rw [hmatch, Int.ofNat_eq_natCast]
      exact ⟨by omega, by omega⟩
    have hpred : ¬ validTaskIdx tasks e.1 := by
      rcases hd with h | h
      · exact h
      · exact absurd he2 h
    have hnone : taskCoord tasks e.1 = none :=
      (taskCoord_eq_none_iff _ _).2 hpred
    have hfe : arrowFromPred tasks emp st e.1 = none := by
      unfold arrowFromPred
      rw [hnone]
    have hdec : decide (e.2 = Int.ofNat i) = true := decide_eq_true hmatch
    simp only [hdec, List.map_append, List.filterMap_append]
    simp [List.filterMap_cons, hfe]
  · have hdec : decide (e.2 = Int.ofNat i) = false := decide_eq_false hmatch
    simp only [hdec, List.map_append, List.filterMap_append]
    simp

theorem render_isOk_edge_free (a s d prio : List Int)
    (prec1 prec2 : List (Int × Int)) (m cst : Int) (pre : String) :
    (render a s d prio prec1 m cst pre).isOk =
      (render a s d prio prec2 m cst pre).isOk := by
  unfold render
  by_cases h : a = [] ∨ s = [] ∨ d = []
  · simp [h]
  · simp only [if_neg h]
    rfl

/-- C3: a precedence edge with an out-of-range predecessor or successor,
inserted anywhere in the edge list, leaves the render free of errors and
leaves every arrow and every bar exactly as without that edge. -/
theorem C3_dangling_edge_harmless (a s d prio : List Int)
    (P1 P2 : List (Int × Int)) (e : Int × Int) (m cst : Int) (pre : String)
    (hd : ¬ validTaskIdx (zip3 a s d) e.1 ∨
      ¬ validTaskIdx (zip3 a s d) e.2) :
    (plot_schedule a s d prio (P1 ++ e :: P2) m cst pre).arrows =
      (plot_schedule a s d prio (P1 ++ P2) m cst pre).arrows ∧
    (plot_schedule a s d prio (P1 ++ e :: P2) m cst pre).bars =
      (plot_schedule a s d prio (P1 ++ P2) m cst pre).bars ∧
    (render a s d prio (P1 ++ e :: P2) m cst pre).isOk =
      (render a s d prio (P1 ++ P2) m cst pre).isOk := by
  refine ⟨?_, rfl, render_isOk_edge_free a s d prio _ _ m cst pre⟩
  rw [plot_arrows_def, plot_arrows_def]
  apply List.flatMap_congr
  intro it hit
  exact taskArrows_middle_dangling (zip3 a s d) P1 P2 e it.1 it.2.1 it.2.2.1
    (mem_enum_fst_lt _ _ hit) hd

/-- C3 witness: inserting the dangling edge `(7, 1)` before `(0, 1)` in a
two-task schedule changes no arrow and no bar and raises no error. -/
theorem C3_witness :
    (¬ validTaskIdx (zip3 [0, 1] [0, 3] [3, 2]) 7 ∨
      ¬ validTaskIdx (zip3 [0, 1] [0, 3] [3, 2]) 1) ∧
    ((plot_schedule [0, 1] [0, 3] [3, 2] [0, 1] [(7, 1), (0, 1)] 5 1
        "Schedule").arrows =
      (plot_schedule [0, 1] [0, 3] [3, 2] [0, 1] [(0, 1)] 5 1
        "Schedule").arrows ∧
     (plot_schedule [0, 1] [0, 3] [3, 2] [0, 1] [(7, 1), (0, 1)] 5 1
        "Schedule").bars =
      (plot_schedule [0, 1] [0, 3] [3, 2] [0, 1] [(0, 1)] 5 1
        "Schedule").bars ∧
     (render [0, 1] [0, 3] [3, 2] [0, 1] [(7, 1), (0, 1)] 5 1
        "Schedule").isOk =
      (render [0, 1] [0, 3] [3, 2] [0, 1] [(0, 1)] 5 1
        "Schedule").isOk) :=
  ⟨Or.inl (by decide),
    C3_dangling_edge_harmless [0, 1] [0, 3] [3, 2] [0, 1] [] [(0, 1)]
      (7, 1) 5 1 "Schedule" (Or.inl (by decide))⟩

/-- C9: an edge `(p, q)` with out-of-range predecessor `p` and valid
successor `q` still contributes `"T{p}"` to the comma-joined predecessor
labels of task `q`, even though the arrow layer drops it (`task_coords`
has no key `p`). -/
theorem C9_dangling_pred_in_label (a s d prio : List Int)
    (prec : List (Int × Int)) (m cst : Int) (pre : String) (p q : Int)
    (hmem : (p, q) ∈ prec)
    (hpinv : ¬ validTaskIdx (zip3 a s d) p)
    (hq : validTaskIdx (zip3 a s d) q) :
    ("T" ++ toString p) ∈
      (build_task_predecessors prec q).map (fun r => "T" ++ toString r) ∧
    ((plot_schedule a s d prio prec m cst pre).labels[q.toNat]?).map
        ChartLabel.text =
      some (String.intercalate ","
          ((build_task_predecessors prec q).map
            (fun r => "T" ++ toString r)) ++
        " -> " ++ ("T" ++ toString q.toNat)) ∧
    taskCoord (zip3 a s d) p = none := by
  have hp_mem : p ∈ build_task_predecessors prec q := by
    rw [btp_eq]
    exact List.mem_map.2 ⟨(p, q), List.mem_filter.2 ⟨hmem, by simp⟩, rfl⟩
  refine ⟨List.mem_map.2 ⟨p, hp_mem, rfl⟩, ?_,
    (taskCoord_eq_none_iff _ _).2 hpinv⟩
  rw [plot_labels_getElem]
  rw [List.getElem?_eq_getElem hq.2]
  simp only [Option.map_some']
  congr 1
  simp only [taskLabel]
  have hkey : Int.ofNat q.toNat = q := by
    rw [Int.ofNat_eq_natCast, Int.toNat_of_nonneg hq.1]
  rw [hkey]
  rw [if_neg (List.ne_nil_of_mem hp_mem)]

/-- C9 witness: with edge `(7, 1)` over two tasks, task 1's label text is
built from the predecessor list `[7]` while no coordinate exists for 7. -/
theorem C9_witness :
    ((7, 1) : Int × Int) ∈ ([(7, 1)] : List (Int × Int)) ∧
    (¬ validTaskIdx (zip3 [0, 1] [0, 3] [3, 2]) 7) ∧
    validTaskIdx (zip3 [0, 1] [0, 3] [3, 2]) 1 ∧
    (("T" ++ toString (7 : Int)) ∈
      (build_task_predecessors [(7, 1)] 1).map
        (fun r => "T" ++ toString r) ∧
     ((plot_schedule [0, 1] [0, 3] [3, 2] [0, 1] [(7, 1)] 5 1
        "Schedule").labels[(1 : Int).toNat]?).map ChartLabel.text =
      some (String.intercalate ","
          ((build_task_predecessors [(7, 1)] 1).map
            (fun r => "T" ++ toString r)) ++
        " -> " ++ ("T" ++ toString (1 : Int).toNat)) ∧
     taskCoord (zip3 [0, 1] [0, 3] [3, 2]) 7 = none) :=
  ⟨by decide, by decide, by decide,
    C9_dangling_pred_in_label [0, 1] [0, 3] [3, 2] [0, 1] [(7, 1)] 5 1
      "Schedule" 7 1 (by decide) (by decide) (by decide)⟩

/-- C10: a task `t` for which no employee row of the binary matrix `x` has
`x[e][t] == 1` is not dropped by the MIP script: it is assigned employee 0
and its bar is drawn on employee 0's row. -/
theorem C10_mip_default_assignment (x : List (List Int))
    (s d p : List Int) (prec : List (Int × Int)) (m cst : Int) (t : Nat)
    (ht : t < s.length) (htd : t < d.length)
    (hno : ∀ e, e < x.length →
      ¬ (t < (x.getD e []).length ∧ (x.getD e []).getD t 0 = 1)) :
    (mip_assignments x s.length)[t]? = some 0 ∧
    (mip_assignments x s.length).length = s.length ∧
    ((visualize_mip x s d p prec m cst).bars[t]?).map Bar.emp = some 0 := by
  have hfind : mip_assigned_emp x t = none := by
    unfold mip_assigned_emp
    rw [List.find?_eq_none]
    intro e he
    rw [List.mem_range] at he
    simp only [Bool.and_eq_true, decide_eq_true_eq]
    rintro ⟨⟨he1, he2⟩, he3⟩
    exact hno e he ⟨he2, he3⟩
  have hassign : mip_assignment x t = 0 := by
    unfold mip_assignment
    rw [hfind]
    rfl
  have hget : (mip_assignments x s.length)[t]? = some 0 := by
    unfold mip_assignments
    rw [List.getElem?_map, List.getElem?_range ht]
    simp [hassign]
  refine ⟨hget, ?_, ?_⟩
  · unfold mip_assignments
    rw [List.length_map, List.length_range]
  · unfold visualize_mip
    rw [plot_bars_getElem, zip3_getElem, List.getElem?_map, hget,
      List.getElem?_eq_getElem ht, List.getElem?_eq_getElem htd]
    simp

/-- C10 witness: a 2-by-2 all-zero assignment matrix leaves task 0
unassigned; it lands on employee row 0. -/
theorem C10_witness :
    (0 < ([0, 3] : List Int).length) ∧ (0 < ([3, 2] : List Int).length) ∧
    (∀ e, e < ([[0, 0], [0, 0]] : List (List Int)).length →
      ¬ (0 < (([[0, 0], [0, 0]] : List (List Int)).getD e []).length ∧
        (([[0, 0], [0, 0]] : List (List Int)).getD e []).getD 0 0 = 1)) ∧
    ((mip_assignments [[0, 0], [0, 0]] ([0, 3] : List Int).length)[0]? =
      some 0 ∧
     (mip_assignments [[0, 0], [0, 0]]
        ([0, 3] : List Int).length).length = ([0, 3] : List Int).length ∧
     ((visualize_mip [[0, 0], [0, 0]] [0, 3] [3, 2] [] [] 5 1).bars[0]?).map
        Bar.emp = some 0) := by
  have hno : ∀ e, e < ([[0, 0], [0, 0]] : List (List Int)).length →
      ¬ (0 < (([[0, 0], [0, 0]] : List (List Int)).getD e []).length ∧
        (([[0, 0], [0, 0]] : List (List Int)).getD e []).getD 0 0 = 1) := by
    intro e he
    simp only [List.length_cons, List.length_nil] at he
    interval_cases e <;> decide
  exact ⟨by decide, by decide, hno,
    C10_mip_default_assignment [[0, 0], [0, 0]] [0, 3] [3, 2] [] [] 5 1 0
      (by decide) (by decide) hno⟩
